import Mathlib

/-!
Verification of the Tangent Notebook native file bridge
(`src/frontend/src-tauri/src/lib.rs`).

The bridge exposes five commands to the UI: `read_notebook_file`,
`write_notebook_file`, `get_recent_files`, `add_recent_file` and
`get_default_save_directory`.  Each is a thin wrapper over filesystem
calls, so we embed the filesystem state explicitly and translate each
Rust function into a Lean function over that state.

Modelling choices (each stated where it is made):
* notebook files are a path-to-content association list; `fs::write`
  prepends, `fs::read_to_string` finds the most recent write;
* the recent-files store (`<app-data-dir>/recent_files.json`) is a
  dedicated field: absent, or the serde_json serialization of an entry
  list, or malformed text.  `serde_json` round-trips
  `Vec<RecentFile>` (string and `u64` fields), so serialization is
  modelled by the constructor `StoreJson.wellFormed` and parse failure
  by `StoreJson.malformed`;
* platform directory resolution (`app_data_dir`, `document_dir`) is a
  field that either resolves or does not;
* `fs::create_dir_all` always succeeds in the model (no disk faults),
  and a counter records every invocation so that "no further creation"
  is observable;
* the I/O error text inside `format!` messages is platform dependent;
  it is modelled by a fixed string (for reads) or the raw malformed
  content (for serde parse errors).
-/

namespace Tangent

/-- `struct RecentFile { path: String, name: String, timestamp: u64 }`.
The `u64` is modelled as `Nat`: the code never computes on it, so no
overflow can arise. -/
structure RecentFile where
  path : String
  name : String
  timestamp : Nat
deriving Repr, DecidableEq

/-- Content of the persisted store file `recent_files.json`: either the
serde_json serialization of an entry list (which parses back to exactly
that list), or content that does not parse as `Vec<RecentFile>`. -/
inductive StoreJson where
  | wellFormed (entries : List RecentFile)
  | malformed (raw : String)
deriving Repr, DecidableEq

/-- The filesystem and platform state the bridge interacts with. -/
structure FsState where
  /-- Notebook files: most recent write of a path is listed first. -/
  notebooks : List (String × String)
  /-- Whether `tauri::api::path::app_data_dir` resolves. -/
  appDataResolves : Bool
  /-- Whether the app data directory exists on disk. -/
  appDirExists : Bool
  /-- Content of `<app-data-dir>/recent_files.json`; `none` = absent. -/
  recentStore : Option StoreJson
  /-- Result of `tauri::api::path::document_dir`; `none` = unresolved. -/
  documentsDir : Option String
  /-- Whether `<documents-dir>/Tangent Notebooks` exists on disk. -/
  notebooksDirExists : Bool
  /-- Number of `fs::create_dir_all` calls performed so far. -/
  mkdirCount : Nat
deriving Repr, DecidableEq

/-- Modelled text of the platform I/O error for a failed read. -/
def ioReadErr : String := "No such file or directory (os error 2)"

/-- `fs::read_to_string`: content of the most recent write to `path`. -/
def fsLookup : List (String × String) → String → Option String
  | [], _ => none
  | (p, c) :: rest, q => if p = q then some c else fsLookup rest q

/-- `read_notebook_file(path)`: `fs::read_to_string(&path)
.map_err(|e| format!("Failed to read file: {}", e))`. -/
def read_notebook_file (fs : FsState) (path : String) : Except String String :=
  match fsLookup fs.notebooks path with
  | some content => .ok content
  | none => .error ("Failed to read file: " ++ ioReadErr)

/-- `write_notebook_file(path, content)`: `fs::write(&path, content)`;
overwrites or creates the file (always succeeds in the model). -/
def write_notebook_file (fs : FsState) (path content : String) :
    Except String Unit × FsState :=
  (.ok (), { fs with notebooks := (path, content) :: fs.notebooks })

/-- `get_recent_files()`: resolve the app data dir, return `[]` if the
store file is absent, else parse it, surfacing a parse failure. -/
def get_recent_files (fs : FsState) : Except String (List RecentFile) :=
  if fs.appDataResolves = false then .error "Failed to get app data directory"
  else
    match fs.recentStore with
    | none => .ok []
    | some (.wellFormed entries) => .ok entries
    | some (.malformed raw) => .error ("Failed to parse recent files: " ++ raw)

/-- `add_recent_file(path, name, timestamp)`: resolve the app data dir,
create it if absent, load the store (a malformed store is downgraded to
empty by `unwrap_or_default`), `retain` the entries of other paths,
insert the new entry at index 0, `truncate(10)`, and write back. -/
def add_recent_file (fs : FsState) (path name : String) (timestamp : Nat) :
    Except String Unit × FsState :=
  if fs.appDataResolves = false then (.error "Failed to get app data directory", fs)
  else
    let mkdirs := if fs.appDirExists then fs.mkdirCount else fs.mkdirCount + 1
    let loaded : List RecentFile :=
      match fs.recentStore with
      | none => []
      | some (.wellFormed entries) => entries
      | some (.malformed _) => []
    let kept := loaded.filter (fun f => f.path ≠ path)
    let updated := ({ path := path, name := name, timestamp := timestamp } :: kept).take 10
    (.ok (), { fs with appDirExists := true, mkdirCount := mkdirs,
                       recentStore := some (.wellFormed updated) })

/-- `get_default_save_directory()`: resolve the documents dir, join
`"Tangent Notebooks"`, create it if absent, return it as a string. -/
def get_default_save_directory (fs : FsState) : Except String String × FsState :=
  match fs.documentsDir with
  | none => (.error "Failed to get documents directory", fs)
  | some docs =>
    let dir := docs ++ "/Tangent Notebooks"
    if fs.notebooksDirExists then (.ok dir, fs)
    else (.ok dir, { fs with notebooksDirExists := true, mkdirCount := fs.mkdirCount + 1 })

/-- Run a sequence of `add_recent_file` calls, threading the state. -/
def runAdds (fs : FsState) : List (String × String × Nat) → FsState
  | [] => fs
  | (p, n, t) :: rest => runAdds (add_recent_file fs p n t).2 rest

/-- The entry a call `(path, name, timestamp)` inserts. -/
def entryOf : String × String × Nat → RecentFile
  | (p, n, t) => { path := p, name := n, timestamp := t }

/-- Paths of an entry list. -/
def pathsOf (entries : List RecentFile) : List String :=
  entries.map RecentFile.path

/-- Entries of a store that parses; `[]` when absent or malformed. -/
def storedEntries : Option StoreJson → List RecentFile
  | some (.wellFormed entries) => entries
  | _ => []

/-- The documented invariant of the persisted store: it is absent or a
well-formed list of at most 10 entries with pairwise distinct paths.
A malformed store violates it. -/
def storeInv : Option StoreJson → Prop
  | none => True
  | some (.wellFormed entries) => entries.length ≤ 10 ∧ (pathsOf entries).Nodup
  | some (.malformed _) => False

instance storeInvDecidable : (s : Option StoreJson) → Decidable (storeInv s)
  | none => .isTrue trivial
  | some (.wellFormed entries) =>
      inferInstanceAs (Decidable (entries.length ≤ 10 ∧ (pathsOf entries).Nodup))
  | some (.malformed _) => .isFalse id

/-- A concrete fresh environment: no files, empty store, resolvable
platform directories. -/
def initFs : FsState :=
  { notebooks := []
    appDataResolves := true
    appDirExists := false
    recentStore := none
    documentsDir := some "/home/user/Documents"
    notebooksDirExists := false
    mkdirCount := 0 }

/-- An 11-entry store list with a duplicated path, as an external
writer of `recent_files.json` could produce. -/
def oversizedStore : List RecentFile :=
  ⟨"/d", "dup", 0⟩ :: ⟨"/d", "dup2", 1⟩ ::
    (List.range 9).map (fun i => ⟨toString i, "f", i⟩)

/-- Fifteen `add_recent_file` calls with pairwise distinct paths. -/
def calls15 : List (String × String × Nat) :=
  [("/f01", "n", 1), ("/f02", "n", 2), ("/f03", "n", 3), ("/f04", "n", 4),
   ("/f05", "n", 5), ("/f06", "n", 6), ("/f07", "n", 7), ("/f08", "n", 8),
   ("/f09", "n", 9), ("/f10", "n", 10), ("/f11", "n", 11), ("/f12", "n", 12),
   ("/f13", "n", 13), ("/f14", "n", 14), ("/f15", "n", 15)]

/-! ### Basic lemmas about `add_recent_file` -/

lemma add_recent_file_snd (fs : FsState) (p n : String) (t : Nat)
    (h : fs.appDataResolves = true) :
    (add_recent_file fs p n t).2 =
      { fs with appDirExists := true
                mkdirCount := if fs.appDirExists then fs.mkdirCount else fs.mkdirCount + 1
                recentStore := some (.wellFormed
                  (({ path := p, name := n, timestamp := t } ::
                    (storedEntries fs.recentStore).filter (fun f => f.path ≠ p)).take 10)) } := by
  unfold add_recent_file
  rw [h]
  cases hs : fs.recentStore with
  | none => simp [storedEntries, hs]
  | some s => cases s <;> simp [storedEntries, hs]

lemma add_recent_file_resolves (fs : FsState) (p n : String) (t : Nat) :
    (add_recent_file fs p n t).2.appDataResolves = fs.appDataResolves := by
  unfold add_recent_file
  cases h : fs.appDataResolves <;> simp [h]

lemma runAdds_resolves (calls : List (String × String × Nat)) :
    ∀ fs : FsState, (runAdds fs calls).appDataResolves = fs.appDataResolves := by
  induction calls with
  | nil => intro fs; rfl
  | cons c rest ih =>
      intro fs
      obtain ⟨p, n, t⟩ := c
      rw [runAdds, ih, add_recent_file_resolves]

/-! ### Claims about the notebook file operations -/

/-- C4: writing content `C` to path `P` via `write_notebook_file` and
then reading `P` via `read_notebook_file` succeeds and returns exactly
`C`, for any state, path and content. -/
theorem write_read_roundtrip (fs : FsState) (P C : String) :
    read_notebook_file (write_notebook_file fs P C).2 P = .ok C := by
  simp [read_notebook_file, write_notebook_file, fsLookup]

/-- C8: `read_notebook_file` on a path at which no file exists returns
an I/O error description, never a success value. -/
theorem read_missing_errors (fs : FsState) (P : String)
    (h : fsLookup fs.notebooks P = none) :
    read_notebook_file fs P = .error ("Failed to read file: " ++ ioReadErr) := by
  simp [read_notebook_file, h]

theorem read_missing_errors_witness :
    read_notebook_file initFs "/no/such/file.nb" =
      .error ("Failed to read file: " ++ ioReadErr) :=
  read_missing_errors initFs "/no/such/file.nb" rfl

/-! ### Claims about `get_recent_files` -/

/-- C6: when the persisted recent-files store does not exist (and the
app data directory resolves), `get_recent_files` returns the empty list
as a success value, not an error. -/
theorem empty_store_ok (fs : FsState)
    (hres : fs.appDataResolves = true) (hstore : fs.recentStore = none) :
    get_recent_files fs = .ok [] := by
  simp [get_recent_files, hres, hstore]

theorem empty_store_ok_witness : get_recent_files initFs = .ok [] :=
  empty_store_ok initFs rfl rfl

/-- C10: `get_recent_files` returns the parsed store content verbatim,
in file order, enforcing neither the 10-entry cap nor path uniqueness:
any list the store file parses to is returned whole. -/
theorem get_recent_files_verbatim (fs : FsState) (l : List RecentFile)
    (hres : fs.appDataResolves = true)
    (hstore : fs.recentStore = some (.wellFormed l)) :
    get_recent_files fs = .ok l := by
  simp [get_recent_files, hres, hstore]

/-- An externally written store of 11 entries, two sharing a path, is
returned whole: 11 entries, duplicate included, in file order. -/
theorem get_recent_files_verbatim_witness :
    get_recent_files { initFs with recentStore := some (.wellFormed oversizedStore) } =
      .ok oversizedStore ∧ oversizedStore.length = 11 :=
  ⟨get_recent_files_verbatim _ _ rfl rfl, by decide⟩

/-- C5: on a store that exists but is malformed, `get_recent_files`
fails with a parse-error description, while `add_recent_file` swallows
the parse failure, treats the list as empty, succeeds, and writes a
single-entry list. -/
theorem malformed_store_asymmetry (fs : FsState) (raw : String)
    (hres : fs.appDataResolves = true)
    (hstore : fs.recentStore = some (.malformed raw))
    (P N : String) (T : Nat) :
    get_recent_files fs = .error ("Failed to parse recent files: " ++ raw) ∧
    (add_recent_file fs P N T).1 = .ok () ∧
    (add_recent_file fs P N T).2.recentStore =
      some (.wellFormed [{ path := P, name := N, timestamp := T }]) := by
  refine ⟨by simp [get_recent_files, hres, hstore], ?_, ?_⟩
  · unfold add_recent_file
    rw [hres]
    simp
  · rw [add_recent_file_snd fs P N T hres]
    simp [hstore, storedEntries]

theorem malformed_store_asymmetry_witness :
    get_recent_files { initFs with recentStore := some (.malformed "not json") } =
      .error ("Failed to parse recent files: " ++ "not json") ∧
    (add_recent_file { initFs with recentStore := some (.malformed "not json") }
        "/a/x.nb" "x" 7).1 = .ok () ∧
    (add_recent_file { initFs with recentStore := some (.malformed "not json") }
        "/a/x.nb" "x" 7).2.recentStore =
      some (.wellFormed [{ path := "/a/x.nb", name := "x", timestamp := 7 }]) :=
  malformed_store_asymmetry _ "not json" rfl rfl "/a/x.nb" "x" 7

/-- C7: from an empty store, adding x.nb, then y.nb, then x.nb again
with new name and timestamp yields exactly the two-entry list with the
refreshed x.nb entry first. -/
theorem example_scenario :
    get_recent_files (runAdds initFs
        [("/a/x.nb", "x", 1000), ("/a/y.nb", "y", 2000), ("/a/x.nb", "x2", 3000)]) =
      .ok [{ path := "/a/x.nb", name := "x2", timestamp := 3000 },
           { path := "/a/y.nb", name := "y", timestamp := 2000 }] := by
  rfl

/-! ### C9: default save directory -/

/-- C9: when the documents directory resolves, the first call to
`get_default_save_directory` returns `<documents>/Tangent Notebooks`,
creating it exactly when it was absent; a second call performs no
further creation, leaves the state unchanged, and returns the same
path. -/
theorem default_dir_idempotent (fs : FsState) (d : String)
    (h : fs.documentsDir = some d) :
    (get_default_save_directory fs).1 = .ok (d ++ "/Tangent Notebooks") ∧
    (get_default_save_directory fs).2.notebooksDirExists = true ∧
    (fs.notebooksDirExists = false →
      (get_default_save_directory fs).2.mkdirCount = fs.mkdirCount + 1) ∧
    (fs.notebooksDirExists = true → (get_default_save_directory fs).2 = fs) ∧
    get_default_save_directory (get_default_save_directory fs).2 =
      (.ok (d ++ "/Tangent Notebooks"), (get_default_save_directory fs).2) := by
  cases hnb : fs.notebooksDirExists <;>
    simp [get_default_save_directory, h, hnb]

theorem default_dir_idempotent_witness :
    (get_default_save_directory initFs).1 =
      .ok ("/home/user/Documents" ++ "/Tangent Notebooks") ∧
    (get_default_save_directory initFs).2.notebooksDirExists = true ∧
    (initFs.notebooksDirExists = false →
      (get_default_save_directory initFs).2.mkdirCount = initFs.mkdirCount + 1) ∧
    (initFs.notebooksDirExists = true → (get_default_save_directory initFs).2 = initFs) ∧
    get_default_save_directory (get_default_save_directory initFs).2 =
      (.ok ("/home/user/Documents" ++ "/Tangent Notebooks"),
        (get_default_save_directory initFs).2) :=
  default_dir_idempotent initFs "/home/user/Documents" rfl

/-! ### C3: deduplication by path -/

lemma storedEntries_wellFormed (l : List RecentFile) :
    storedEntries (some (.wellFormed l)) = l := rfl

lemma add_recent_file_entries (fs : FsState) (p n : String) (t : Nat)
    (h : fs.appDataResolves = true) :
    storedEntries (add_recent_file fs p n t).2.recentStore =
      (({ path := p, name := n, timestamp := t } : RecentFile) ::
        (storedEntries fs.recentStore).filter (fun f => f.path ≠ p)).take 10 := by
  rw [add_recent_file_snd fs p n t h]
  rfl

lemma add_entry_unique (fs : FsState) (hres : fs.appDataResolves = true)
    (p n : String) (t : Nat) :
    (storedEntries (add_recent_file fs p n t).2.recentStore).filter
        (fun f => f.path = p) = [{ path := p, name := n, timestamp := t }] := by
  rw [add_recent_file_entries fs p n t hres]
  rw [List.take_succ_cons, List.filter_cons_of_pos (by simp)]
  have hnil : (((storedEntries fs.recentStore).filter (fun f => f.path ≠ p)).take 9).filter
      (fun f => f.path = p) = [] := by
    rw [List.filter_eq_nil_iff]
    intro a ha
    have ha2 : a ∈ (storedEntries fs.recentStore).filter (fun f => f.path ≠ p) :=
      List.take_subset 9 _ ha
    have := List.of_mem_filter ha2
    simpa using this
  rw [hnil]

/-- C3: calling `add_recent_file` twice with the same path `P`, name
`N` and timestamp `T` leaves the persisted list with exactly one entry
whose path is `P`, and that entry carries the second call's name and
timestamp. -/
theorem dedup_idempotent (fs : FsState) (hres : fs.appDataResolves = true)
    (P N : String) (T : Nat) :
    (storedEntries
        (add_recent_file (add_recent_file fs P N T).2 P N T).2.recentStore).filter
        (fun f => f.path = P) = [{ path := P, name := N, timestamp := T }] :=
  add_entry_unique (add_recent_file fs P N T).2
    (by rw [add_recent_file_resolves]; exact hres) P N T

theorem dedup_idempotent_witness :
    (storedEntries
        (add_recent_file (add_recent_file initFs "/a/x.nb" "x" 9).2 "/a/x.nb" "x" 9).2.recentStore).filter
        (fun f => f.path = "/a/x.nb") =
      [{ path := "/a/x.nb", name := "x", timestamp := 9 }] :=
  dedup_idempotent initFs rfl "/a/x.nb" "x" 9

/-! ### C1: the persisted-store invariant -/

lemma storedEntries_nodup (s : Option StoreJson) (h : storeInv s) :
    (pathsOf (storedEntries s)).Nodup := by
  cases s with
  | none => simp [storedEntries, pathsOf]
  | some j =>
    cases j with
    | wellFormed l => exact h.2
    | malformed raw => exact absurd h id

lemma storeInv_add (fs : FsState) (p n : String) (t : Nat)
    (h : storeInv fs.recentStore) :
    storeInv (add_recent_file fs p n t).2.recentStore := by
  cases hres : fs.appDataResolves with
  | false =>
      unfold add_recent_file
      rw [hres]
      simpa using h
  | true =>
      rw [add_recent_file_snd fs p n t hres]
      have hkept : List.Sublist
          (((({ path := p, name := n, timestamp := t } : RecentFile) ::
            (storedEntries fs.recentStore).filter (fun f => f.path ≠ p)).take 10))
          (({ path := p, name := n, timestamp := t } : RecentFile) ::
            (storedEntries fs.recentStore).filter (fun f => f.path ≠ p)) :=
        List.take_sublist 10 _
      refine ⟨?_, ?_⟩
      · simp [List.length_take]
      · refine List.Nodup.sublist (hkept.map RecentFile.path) ?_
        rw [List.map_cons, List.nodup_cons]
        refine ⟨?_, ?_⟩
        · intro hmem
          obtain ⟨a, ha, hap⟩ := List.mem_map.mp hmem
          have := List.of_mem_filter ha
          simp only [ne_eq, decide_not, Bool.not_eq_true', decide_eq_false_iff_not] at this
          exact this hap
        · exact List.Nodup.sublist
            ((List.filter_sublist _).map RecentFile.path)
            (storedEntries_nodup fs.recentStore h)

lemma storeInv_runAdds (calls : List (String × String × Nat)) :
    ∀ fs : FsState, storeInv fs.recentStore →
      storeInv (runAdds fs calls).recentStore := by
  induction calls with
  | nil => intro fs h; exact h
  | cons c rest ih =>
      intro fs h
      obtain ⟨p, n, t⟩ := c
      exact ih _ (storeInv_add fs p n t h)

/-- C1: starting from an empty or absent store, any sequence of
`add_recent_file` calls leaves the persisted list with at most 10
entries and pairwise distinct paths (each call removes the matching
path, prepends, and truncates to 10 before writing).  Every prefix of a
call sequence is itself a call sequence, so this covers the store after
each individual call. -/
theorem recent_store_invariant (fs : FsState)
    (h0 : fs.recentStore = none ∨ fs.recentStore = some (.wellFormed []))
    (calls : List (String × String × Nat)) :
    storeInv (runAdds fs calls).recentStore := by
  refine storeInv_runAdds calls fs ?_
  rcases h0 with h | h <;> rw [h]
  · trivial
  · exact ⟨by simp, by simp [pathsOf]⟩

theorem recent_store_invariant_witness :
    storeInv (runAdds initFs
      [("/a", "a", 1), ("/b", "b", 2), ("/a", "a2", 3), ("/c", "c", 4)]).recentStore :=
  recent_store_invariant initFs (Or.inl rfl)
    [("/a", "a", 1), ("/b", "b", 2), ("/a", "a2", 3), ("/c", "c", 4)]

/-! ### C2: capacity bound for distinct paths -/

lemma entryOf_path (c : String × String × Nat) : (entryOf c).path = c.1 := by
  obtain ⟨p, n, t⟩ := c
  rfl

lemma runAdds_distinct_entries (calls : List (String × String × Nat)) :
    ∀ (fs : FsState) (done : List (String × String × Nat)),
      fs.appDataResolves = true →
      storedEntries fs.recentStore = (done.reverse.map entryOf).take 10 →
      ((done ++ calls).map (fun c => c.1)).Nodup →
      storedEntries (runAdds fs calls).recentStore =
        ((done ++ calls).reverse.map entryOf).take 10 := by
  induction calls with
  | nil =>
      intro fs done hres hstore hnd
      simpa using hstore
  | cons c rest ih =>
      intro fs done hres hstore hnd
      obtain ⟨p, n, t⟩ := c
      rw [runAdds]
      have hp : p ∉ done.map (fun c => c.1) := by
        intro hmem
        rw [List.map_append] at hnd
        have hd := (List.nodup_append.mp hnd).2.2
        exact hd hmem (by simp)
      have hfilt : ((done.reverse.map entryOf).take 10).filter (fun f => f.path ≠ p) =
          (done.reverse.map entryOf).take 10 := by
        rw [List.filter_eq_self]
        intro a ha
        have ha2 : a ∈ done.reverse.map entryOf := List.take_subset 10 _ ha
        obtain ⟨cc, hc, hac⟩ := List.mem_map.mp ha2
        simp only [decide_eq_true_eq]
        intro hap
        apply hp
        refine List.mem_map.mpr ⟨cc, List.mem_reverse.mp hc, ?_⟩
        rw [← hap, ← hac, entryOf_path]
      have hstep : storedEntries (add_recent_file fs p n t).2.recentStore =
          ((done ++ [(p, n, t)]).reverse.map entryOf).take 10 := by
        rw [add_recent_file_entries fs p n t hres, hstore, hfilt, List.reverse_append]
        simp [List.take_succ_cons, List.take_take, entryOf]
      have hres2 : (add_recent_file fs p n t).2.appDataResolves = true := by
        rw [add_recent_file_resolves]
        exact hres
      have hnd2 : (((done ++ [(p, n, t)]) ++ rest).map (fun c => c.1)).Nodup := by
        simpa [List.append_assoc] using hnd
      have hrec := ih (add_recent_file fs p n t).2 (done ++ [(p, n, t)]) hres2 hstep hnd2
      simpa [List.append_assoc] using hrec

lemma runAdds_cons_wellFormed (rest : List (String × String × Nat)) :
    ∀ (fs : FsState) (c : String × String × Nat), fs.appDataResolves = true →
      ∃ l, (runAdds fs (c :: rest)).recentStore = some (.wellFormed l) := by
  induction rest with
  | nil =>
      intro fs c hres
      obtain ⟨p, n, t⟩ := c
      refine ⟨(({ path := p, name := n, timestamp := t } : RecentFile) ::
        (storedEntries fs.recentStore).filter (fun f => f.path ≠ p)).take 10, ?_⟩
      rw [runAdds, runAdds, add_recent_file_snd fs p n t hres]
  | cons c2 rest2 ih =>
      intro fs c hres
      obtain ⟨p, n, t⟩ := c
      rw [runAdds]
      refine ih _ c2 ?_
      rw [add_recent_file_resolves]
      exact hres

/-- C2: after 15 `add_recent_file` calls with pairwise distinct paths
starting from an empty or absent store, `get_recent_files` returns
exactly 10 entries, most-recently-added first, and their paths are
exactly the last 10 paths added (in reverse order of addition). -/
theorem capacity_bound (fs : FsState) (calls : List (String × String × Nat))
    (hres : fs.appDataResolves = true)
    (hstore : fs.recentStore = none ∨ fs.recentStore = some (.wellFormed []))
    (hlen : calls.length = 15)
    (hnd : (calls.map (fun c => c.1)).Nodup) :
    get_recent_files (runAdds fs calls) =
      .ok ((calls.reverse.map entryOf).take 10) ∧
    ((calls.reverse.map entryOf).take 10).length = 10 ∧
    pathsOf ((calls.reverse.map entryOf).take 10) =
      ((calls.map (fun c => c.1)).reverse).take 10 := by
  have hres2 : (runAdds fs calls).appDataResolves = true := by
    rw [runAdds_resolves]
    exact hres
  have hstored0 : storedEntries fs.recentStore =
      (([] : List (String × String × Nat)).reverse.map entryOf).take 10 := by
    rcases hstore with h | h <;> simp [storedEntries, h]
  have hmain := runAdds_distinct_entries calls fs [] hres hstored0 (by simpa using hnd)
  simp only [List.nil_append] at hmain
  obtain ⟨c, rest, rfl⟩ : ∃ c rest, calls = c :: rest := by
    cases calls with
    | nil => simp at hlen
    | cons c rest => exact ⟨c, rest, rfl⟩
  obtain ⟨l, hl⟩ := runAdds_cons_wellFormed rest fs c hres
  have hleq : l = ((c :: rest).reverse.map entryOf).take 10 := by
    rw [← hmain, hl, storedEntries_wellFormed]
  refine ⟨?_, ?_, ?_⟩
  · rw [get_recent_files]
    rw [hres2]
    simp only [Bool.true_eq_false, if_false, hl, hleq]
  · rw [List.length_take, List.length_map, List.length_reverse, hlen]
    decide
  · rw [pathsOf, List.map_take, List.map_map]
    have hcomp : (RecentFile.path ∘ entryOf) = (fun c : String × String × Nat => c.1) := by
      funext cc
      exact entryOf_path cc
    rw [hcomp, List.map_reverse]

theorem capacity_bound_witness :
    get_recent_files (runAdds initFs calls15) =
      .ok ((calls15.reverse.map entryOf).take 10) ∧
    ((calls15.reverse.map entryOf).take 10).length = 10 ∧
    pathsOf ((calls15.reverse.map entryOf).take 10) =
      ((calls15.map (fun c => c.1)).reverse).take 10 :=
  capacity_bound initFs calls15 rfl (Or.inl rfl) (by decide) (by decide)

end Tangent
